import Mathlib

/-!
Shallow embedding of the lakeFS versioned object index (`index/indexer.go`).

The index orchestration layer (`KVIndex`) is translated directly from the
source. The collaborators that the index consumes — the transactional store,
the Merkle tree engine, the commit DAG, identity/hashing, path utilities and
the validators — are not part of the staged sources; they are modelled from
the specification (each such definition's doc comment says so). The store is
a single repository's scope: association lists keyed by names/addresses,
plus two fault switches so that a failing `WriteCommit` / `WriteBranch` store
call can be expressed. Randomness (the Bernoulli partial-commit trial) is an
explicit rational draw in `[0,1)` passed to the operations that roll the die;
timestamps are explicit parameters (the Go code injects a time generator).
-/

/-- Kind of a tree child entry (`model.Entry_Type`): object or tree. -/
inductive EntryType where
  | object
  | tree
deriving DecidableEq, Repr

/-- A directory-or-file metadata entry (`model.Entry`). -/
structure Entry where
  name : String
  address : String
  type : EntryType
  timestamp : Int
  size : Int
  checksum : String
deriving DecidableEq, Repr

/-- A staged workspace entry (`model.WorkspaceEntry`): a pending insert/update,
or a tombstone marking deletion. -/
structure WorkspaceEntry where
  path : String
  entry : Entry
  tombstone : Bool := false
deriving DecidableEq, Repr

/-- A branch record (`model.Branch`). -/
structure Branch where
  name : String
  commit : String
  commitRoot : String
  workspaceRoot : String
deriving DecidableEq, Repr

/-- A commit record (`model.Commit`). The address is the content hash of the
record as serialized before the address itself is filled in. -/
structure Commit where
  address : String
  tree : String
  parents : List String
  committer : String
  message : String
  timestamp : Int
  metadata : List (String × String)
deriving DecidableEq, Repr

/-- Object metadata (`model.Object`): blockstore address, size, checksum. -/
structure Object where
  blob : String
  size : Int
  checksum : String
deriving DecidableEq, Repr

/-- A repository record (`model.Repo`). The partial-commit ratio is a
probability in `[0,1]`, modelled as a rational. -/
structure Repo where
  repoId : String
  bucketName : String
  creationDate : Int
  defaultBranch : String
  partialCommitRatio : Rat
deriving DecidableEq, Repr

/-- Error kinds of the index (`index/errors` and `db.ErrNotFound`), as the
spec's error taxonomy lists them. `storeError` stands for a storage-layer
failure surfaced by a store write. -/
inductive Err where
  | notFound
  | branchNotFound
  | branchAlreadyExists
  | repoExists
  | destinationNotCommitted
  | noMergeBase
  | mergeConflict
  | mergeUpdateFailed
  | invalidRepoId
  | invalidRef
  | invalidPath
  | invalidCommitId
  | emptyCommitMessage
  | storeError
deriving DecidableEq, Repr

/-- Decidable equality for fallible results, so concrete runs of the
operations can be checked by `decide`. -/
instance decEqExcept {ε α : Type} [DecidableEq ε] [DecidableEq α] :
    DecidableEq (Except ε α)
  | .ok a, .ok b =>
    if h : a = b then .isTrue (by rw [h]) else .isFalse (by simp [h])
  | .ok _, .error _ => .isFalse (by simp)
  | .error _, .ok _ => .isFalse (by simp)
  | .error e, .error f =>
    if h : e = f then .isTrue (by rw [h]) else .isFalse (by simp [h])

/-- Modelled from the spec: hex digit test for recognizing hashes by syntax. -/
def isHexChar (c : Char) : Bool :=
  c.isDigit || ('a' ≤ c && c ≤ 'f') || ('A' ≤ c && c ≤ 'F')

/-- Modelled from the spec: a fixed-width hex rendering used by the content
hash, so that produced addresses satisfy `identIsHash`. -/
def toHex64 (n : Nat) : String :=
  let ds := Nat.toDigits 16 n
  ⟨List.replicate (64 - ds.length) '0' ++ ds⟩

/-- Modelled from the spec: `ident.Hash`'s underlying deterministic content
hash over a canonical serialization, here a rolling hash rendered as 64 hex
characters. -/
def hashString (s : String) : String :=
  toHex64 (s.data.foldl (fun a c => (a * 131 + c.toNat + 17) % 4294967291) 7)

/-- Modelled from the spec: `ident.IsHash` — a reference is syntactically a
hash iff it is 64 hex characters. -/
def identIsHash (s : String) : Bool :=
  s.length == 64 && s.data.all isHexChar

/-- Modelled from the spec: canonical serialization of an entry kind. -/
def canonEntryType : EntryType → String
  | .object => "object"
  | .tree => "tree"

/-- Modelled from the spec: canonical serialization of a metadata map (field
order fixed). -/
def canonMeta (md : List (String × String)) : String :=
  String.intercalate ";" (md.map (fun p => p.1 ++ "=" ++ p.2))

/-- Modelled from the spec: canonical serialization of an entry. -/
def canonEntry (e : Entry) : String :=
  e.name ++ "|" ++ e.address ++ "|" ++ canonEntryType e.type ++ "|" ++
    toString e.timestamp ++ "|" ++ toString e.size ++ "|" ++ e.checksum

/-- Modelled from the spec: canonical serialization of a commit. The address
field is excluded (it is computed from this serialization). -/
def canonCommit (c : Commit) : String :=
  "commit:" ++ c.tree ++ "|" ++ String.intercalate "," c.parents ++ "|" ++
    c.committer ++ "|" ++ c.message ++ "|" ++ toString c.timestamp ++ "|" ++
    canonMeta c.metadata

/-- Modelled from the spec: canonical serialization of object metadata. -/
def canonObject (o : Object) : String :=
  "object:" ++ o.blob ++ "|" ++ toString o.size ++ "|" ++ o.checksum

/-- Modelled from the spec: `ident.Hash` on a commit. -/
def identHashCommit (c : Commit) : String := hashString (canonCommit c)

/-- Modelled from the spec: `ident.Hash` on object metadata. -/
def identHashObject (o : Object) : String := hashString (canonObject o)

/-- Insertion step for sorting a flattened tree by path (lexicographic). -/
def insertByPath (p : String × Entry) : List (String × Entry) → List (String × Entry)
  | [] => [p]
  | q :: rest => if p.1 < q.1 then p :: q :: rest else q :: insertByPath p rest

/-- Sort a flattened tree's bindings by path, so the content address is a
function of the tree's contents alone. -/
def sortByPath (l : List (String × Entry)) : List (String × Entry) :=
  l.foldr insertByPath []

/-- Modelled from the spec: canonical serialization of a tree (entries in
name order). A tree is modelled flattened: full path to terminal entry. -/
def canonTree (m : List (String × Entry)) : String :=
  "tree:" ++ String.intercalate ";" ((sortByPath m).map (fun p => p.1 ++ "->" ++ canonEntry p.2))

/-- Content address of a (flattened) tree. -/
def treeHash (m : List (String × Entry)) : String := hashString (canonTree m)

/-- Modelled from the spec: `ident.Empty()`, the well-known address of the
empty tree. -/
def identEmpty : String := treeHash []

/-- Split a character list on the slash separator (structural recursion, so
the kernel can evaluate it). -/
def splitChars : List Char → List (List Char)
  | [] => [[]]
  | c :: rest =>
    if c = '/' then [] :: splitChars rest
    else
      match splitChars rest with
      | [] => [[c]]
      | g :: gs => (c :: g) :: gs

/-- Modelled from the spec: split a slash-separated path into its segments
(`strings.Split(path, "/")`). -/
def splitSlash (p : String) : List String :=
  (splitChars p.data).map (fun g => String.mk g)

/-- Modelled from the spec: `pth.New(path).Basename()` — the last
slash-separated segment of a path. -/
def pathBasename (p : String) : String := (splitSlash p).getLastD ""

/-- Modelled from the spec: `pth.New(path).String()` — parse, split and
rejoin a slash-separated path; on canonical paths this round-trips. -/
def pathString (p : String) : String := p

/-- Modelled from the spec: the repo-scoped transactional store. Association
lists keyed by branch name, commit/object/tree address and (branch, path) for
the workspace. The two `fail…` switches inject a storage failure into the
corresponding write call. -/
structure Store where
  repo : Option Repo
  branches : List (String × Branch)
  commits : List (String × Commit)
  objects : List (String × Object)
  workspace : List ((String × String) × WorkspaceEntry)
  trees : List (String × List (String × Entry))
  failWriteCommit : Bool := false
  failWriteBranch : Bool := false
deriving DecidableEq, Repr

/-- Insert into an association list, replacing any existing binding. -/
def assocInsert {α β : Type} [DecidableEq α] (k : α) (v : β) (l : List (α × β)) : List (α × β) :=
  (k, v) :: l.filter (fun p => p.1 ≠ k)

/-- Modelled from the spec: `tx.ReadRepo`. -/
def Store.readRepo (s : Store) : Option Repo := s.repo

/-- Modelled from the spec: `tx.ReadBranch(name)`. -/
def Store.readBranch (s : Store) (name : String) : Option Branch :=
  (s.branches.find? (fun p => p.1 = name)).map Prod.snd

/-- Modelled from the spec: `tx.WriteBranch(name, b)`; fails when the
branch-write fault switch is set. -/
def Store.writeBranch (s : Store) (name : String) (b : Branch) : Except Err Store :=
  if s.failWriteBranch then .error .storeError
  else .ok { s with branches := assocInsert name b s.branches }

/-- Modelled from the spec: `tx.ReadCommit(id)`. -/
def Store.readCommit (s : Store) (id : String) : Option Commit :=
  (s.commits.find? (fun p => p.1 = id)).map Prod.snd

/-- Modelled from the spec: `tx.WriteCommit(id, c)`; fails when the
commit-write fault switch is set. -/
def Store.writeCommit (s : Store) (id : String) (c : Commit) : Except Err Store :=
  if s.failWriteCommit then .error .storeError
  else .ok { s with commits := assocInsert id c s.commits }

/-- Modelled from the spec: `tx.ReadObject(addr)`. -/
def Store.readObject (s : Store) (addr : String) : Option Object :=
  (s.objects.find? (fun p => p.1 = addr)).map Prod.snd

/-- Modelled from the spec: `tx.WriteObject(addr, o)`. -/
def Store.writeObject (s : Store) (addr : String) (o : Object) : Store :=
  { s with objects := assocInsert addr o s.objects }

/-- Modelled from the spec: `tx.ReadFromWorkspace(branch, path)`. -/
def Store.readFromWorkspace (s : Store) (branch path : String) : Option WorkspaceEntry :=
  (s.workspace.find? (fun p => p.1 = (branch, path))).map Prod.snd

/-- Modelled from the spec: `tx.WriteToWorkspacePath(branch, path, we)`. -/
def Store.writeToWorkspacePath (s : Store) (branch path : String) (we : WorkspaceEntry) : Store :=
  { s with workspace := assocInsert (branch, path) we s.workspace }

/-- Modelled from the spec: `tx.ListWorkspace(branch)`. -/
def Store.listWorkspace (s : Store) (branch : String) : List WorkspaceEntry :=
  (s.workspace.filter (fun p => p.1.1 = branch)).map Prod.snd

/-- Modelled from the spec: `tx.DeleteWorkspacePath(branch, path)`. -/
def Store.deleteWorkspacePath (s : Store) (branch path : String) : Store :=
  { s with workspace := s.workspace.filter (fun p => p.1 ≠ (branch, path)) }

/-- Modelled from the spec: `tx.ClearWorkspace(branch)`. -/
def Store.clearWorkspace (s : Store) (branch : String) : Store :=
  { s with workspace := s.workspace.filter (fun p => p.1.1 ≠ branch) }

/-- Modelled from the spec: reading the flattened tree at a root address; an
unknown address denotes the empty tree. -/
def Store.readTree (s : Store) (addr : String) : List (String × Entry) :=
  ((s.trees.find? (fun p => p.1 = addr)).map Prod.snd).getD []

/-- Modelled from the spec: `merkle.GetEntry(root, path, kind)` — look up the
terminal entry at a path, failing with `NotFound` when the path is absent or
the terminal entry has the wrong kind. -/
def merkleGetEntry (s : Store) (root path : String) (typ : EntryType) : Except Err Entry :=
  match (s.readTree root).find? (fun p => p.1 = path) with
  | none => .error .notFound
  | some p => if p.2.type = typ then .ok p.2 else .error .notFound

/-- Modelled from the spec: `merkle.GetObject(root, path)` — resolve the path
to an object entry, then read the object record at its address. -/
def merkleGetObject (s : Store) (root path : String) : Except Err Object :=
  match merkleGetEntry s root path .object with
  | .error e => .error e
  | .ok e =>
    match s.readObject e.address with
    | none => .error .notFound
    | some o => .ok o

/-- Apply one workspace entry to a flattened tree: a tombstone removes the
path, anything else binds the path to the staged entry. -/
def applyWorkspaceEntry (m : List (String × Entry)) (we : WorkspaceEntry) : List (String × Entry) :=
  if we.tombstone then m.filter (fun p => p.1 ≠ we.path)
  else assocInsert we.path we.entry m

/-- Modelled from the spec: `merkle.Update(root, workspace_entries)` — a pure
function of its inputs producing a new content-addressed root; the new node
is persisted by side effect. Tombstones remove entries. -/
def merkleUpdate (s : Store) (root : String) (ws : List WorkspaceEntry) : String × Store :=
  let m := ws.foldl applyWorkspaceEntry (s.readTree root)
  let addr := treeHash m
  (addr, { s with trees := assocInsert addr m s.trees })

/-- Direction of a three-way difference: which side changed relative to the
base, or a conflict when both changed and disagree. -/
inductive DiffDirection where
  | left
  | right
  | conflict
deriving DecidableEq, Repr

/-- Kind of a three-way difference. -/
inductive DiffType where
  | added
  | changed
  | removed
deriving DecidableEq, Repr

/-- One entry of `merkle.Differences`. -/
structure Difference where
  type : DiffType
  direction : DiffDirection
  path : String
  pathType : EntryType
deriving DecidableEq, Repr

/-- The type of a change of one side against the base. -/
def diffTypeOf (side base : Option Entry) : DiffType :=
  match base, side with
  | none, _ => .added
  | some _, none => .removed
  | some _, some _ => .changed

/-- Modelled from the spec: the three-way comparison at one path. If both
sides changed against the base and disagree it is a conflict; if only one
side changed, the difference carries that side's direction; agreeing changes
and unchanged paths produce nothing. -/
def diffAt (path : String) (l r b : Option Entry) : Option Difference :=
  let pt := (((l.or r).or b).map Entry.type).getD .object
  if l = b then
    if r = b then none
    else some { type := diffTypeOf r b, direction := .right, path := path, pathType := pt }
  else
    if r = b then
      some { type := diffTypeOf l b, direction := .left, path := path, pathType := pt }
    else
      if l = r then none
      else some { type := diffTypeOf l b, direction := .conflict, path := path, pathType := pt }

/-- The paths bound in a flattened tree. -/
def treePaths (m : List (String × Entry)) : List String := m.map Prod.fst

/-- Modelled from the spec: `merkle.Diff(left, right, base)` — the three-way
structural diff over the three roots, one difference per path that changed. -/
def merkleDiff (s : Store) (left right base : String) : List Difference :=
  let lm := s.readTree left
  let rm := s.readTree right
  let bm := s.readTree base
  let look := fun (m : List (String × Entry)) (p : String) =>
    (m.find? (fun q => q.1 = p)).map Prod.snd
  ((treePaths lm ++ treePaths rm ++ treePaths bm).dedup).filterMap
    (fun p => diffAt p (look lm p) (look rm p) (look bm p))

/-- The parent addresses of a commit in the store (empty when unknown). -/
def commitParents (s : Store) (addr : String) : List String :=
  ((s.readCommit addr).map Commit.parents).getD []

/-- Fuel-bounded BFS over the commit parent graph, collecting visited
addresses in BFS order. -/
def bfsAux (s : Store) : Nat → List String → List String → List String
  | 0, _, acc => acc.reverse
  | _ + 1, [], acc => acc.reverse
  | fuel + 1, x :: rest, acc =>
    if x ∈ acc then bfsAux s fuel rest acc
    else bfsAux s fuel (rest ++ commitParents s x) (x :: acc)

/-- Fuel that certainly exhausts the commit graph of the store. -/
def bfsFuel (s : Store) : Nat :=
  (s.commits.foldl (fun a p => a + p.2.parents.length + 1) 1) ^ 2 + 1

/-- BFS order of the ancestors of a commit (the commit itself first). -/
def bfsOrder (s : Store) (start : String) : List String :=
  bfsAux s (bfsFuel s) [start] []

/-- Modelled from the spec: `dag.FindLowestCommonAncestor(a, b)` — the first
commit in BFS order from `a` that is also reachable from `b`, or none when
the histories are disjoint. -/
def findLowestCommonAncestor (s : Store) (a b : String) : Option Commit :=
  match (bfsOrder s a).find? (fun x => x ∈ bfsOrder s b) with
  | none => none
  | some addr => s.readCommit addr

/-- Modelled from the spec: the conservative identifier syntax used by the
validators for repository ids and branch names. -/
def validIdChar (c : Char) : Bool := c.isAlphanum || c = '-' || c = '_'

/-- Modelled from the spec: `ValidateRepoId`. -/
def ValidateRepoId (s : String) : Bool := s.length > 0 && s.data.all validIdChar

/-- Modelled from the spec: `ValidatePath` — non-empty, no embedded NUL. -/
def ValidatePath (p : String) : Bool := p.length > 0 && p.data.all (fun c => c ≠ '\x00')

/-- Modelled from the spec: `ValidateRef` — a valid branch name or a hash. -/
def ValidateRef (r : String) : Bool :=
  identIsHash r || (r.length > 0 && r.data.all validIdChar)

/-- Modelled from the spec: `ValidateCommitID`. -/
def ValidateCommitID (c : String) : Bool := identIsHash c

/-- Modelled from the spec: `ValidateCommitMessage` — non-empty. -/
def ValidateCommitMessage (m : String) : Bool := m.length > 0

/-- Modelled from the spec: `ValidateAll` — the error of the first failing
check, if any. -/
def ValidateAll (checks : List (Bool × Err)) : Option Err :=
  (checks.find? (fun c => !c.1)).map Prod.snd

/-- `reference` of `indexer.go`: a resolved ref is either a commit, or a
branch together with the commit it points to. -/
inductive Reference where
  | commit (c : Commit)
  | branch (b : Branch) (c : Commit)
deriving DecidableEq, Repr

/-- Whether the resolved reference is a branch. -/
def Reference.isBranch : Reference → Bool
  | .commit _ => false
  | .branch _ _ => true

/-- The commit of a resolved reference. -/
def Reference.commitOf : Reference → Commit
  | .commit c => c
  | .branch _ c => c

/-- The branch lookup leg of `resolveRef`: read the branch by name, then the
commit it points to. -/
def resolveBranch (s : Store) (ref : String) : Except Err Reference :=
  match s.readBranch ref with
  | none => .error .notFound
  | some branch =>
    match s.readCommit branch.commit with
    | none => .error .notFound
    | some commit => .ok (.branch branch commit)

/-- `resolveRef` of `indexer.go`: a hash-shaped ref is first tried as a
commit address; a miss (or a non-hash ref) is treated as a branch name. -/
def resolveRef (s : Store) (ref : String) : Except Err Reference :=
  if identIsHash ref then
    match s.readCommit ref with
    | some commit => .ok (.commit commit)
    | none => resolveBranch s ref
  else resolveBranch s ref

/-- `shouldPartiallyCommit` of `indexer.go`: the Bernoulli trial, with the
random draw (Go's `rand.Float32()`, a value in `[0,1)`) made explicit. -/
def shouldPartiallyCommit (repo : Repo) (draw : Rat) : Bool :=
  decide (draw < repo.partialCommitRatio)

/-- `partialCommit` of `indexer.go`: fold the branch's workspace entries into
its Merkle tree. No pending entries, or no branch record, is a no-op. -/
def partialCommit (s : Store) (branch : String) : Except Err Store :=
  let wsEntries := s.listWorkspace branch
  if wsEntries.length = 0 then .ok s
  else
    match s.readBranch branch with
    | none => .ok s
    | some branchData =>
      let upd := merkleUpdate s branchData.workspaceRoot wsEntries
      let s2 := upd.2.clearWorkspace branch
      s2.writeBranch branch
        { name := branch
          commit := branchData.commit
          commitRoot := branchData.commitRoot
          workspaceRoot := upd.1 }

/-- `writeEntryToWorkspace` of `indexer.go`: stage the entry, then roll the
partial-commit die. -/
def writeEntryToWorkspace (s : Store) (repo : Repo) (branch path : String)
    (entry : WorkspaceEntry) (draw : Rat) : Except Err Store :=
  let s1 := s.writeToWorkspacePath branch path entry
  if shouldPartiallyCommit repo draw then partialCommit s1 branch
  else .ok s1

/-- `doCommitUpdates` of `indexer.go`: build the commit from the branch's
workspace root, hash it, write it, then advance the branch record. The
result pairs the outcome with the store as left by whichever writes
succeeded (the caller decides whether an error aborts the transaction). -/
def doCommitUpdates (s : Store) (branchData : Branch) (committer message : String)
    (parents : List String) (metadata : List (String × String)) (ts : Int) :
    Except Err Commit × Store :=
  let commit0 : Commit :=
    { address := ""
      tree := branchData.workspaceRoot
      parents := parents
      committer := committer
      message := message
      timestamp := ts
      metadata := metadata }
  let commitAddr := identHashCommit commit0
  let commit := { commit0 with address := commitAddr }
  match s.writeCommit commitAddr commit with
  | .error e => (.error e, s)
  | .ok s1 =>
    let branchData := { branchData with
      commit := commitAddr
      commitRoot := commit.tree
      workspaceRoot := commit.tree }
    match s1.writeBranch branchData.name branchData with
    | .error e => (.error e, s1)
    | .ok s2 => (.ok commit, s2)

/-- `KVIndex.ReadObject` of `indexer.go`: validate, resolve the ref; on a
branch consult the workspace first (a tombstone is `NotFound`, a hit is read
by its address, a miss falls to the `workspace_root` tree); on a commit read
from the commit's tree. The transaction is read-only, so the store is not
modified (the embedding returns no store). -/
def KVIndex.ReadObject (s : Store) (repoId ref path : String) : Except Err Object :=
  match ValidateAll
      [(ValidateRepoId repoId, .invalidRepoId),
       (ValidateRef ref, .invalidRef),
       (ValidatePath path, .invalidPath)] with
  | some e => .error e
  | none =>
    match s.readRepo with
    | none => .error .notFound
    | some _ =>
      match resolveRef s ref with
      | .error e => .error e
      | .ok (.branch branch _) =>
        match s.readFromWorkspace branch.name path with
        | none => merkleGetObject s branch.workspaceRoot path
        | some we =>
          if we.tombstone then .error .notFound
          else
            match s.readObject we.entry.address with
            | none => .error .notFound
            | some o => .ok o
      | .ok (.commit commit) => merkleGetObject s commit.tree path

/-- `KVIndex.DeleteObject` of `indexer.go`: the five-way case analysis over
(workspace entry present, tree entry present). An error return aborts the
transaction, so no store is carried on the error paths. -/
def KVIndex.DeleteObject (s : Store) (repoId branch path : String) (ts : Int) (draw : Rat) :
    Except Err Store :=
  match ValidateAll
      [(ValidateRepoId repoId, .invalidRepoId),
       (ValidateRef branch, .invalidRef),
       (ValidatePath path, .invalidPath)] with
  | some e => .error e
  | none =>
    match s.readRepo with
    | none => .error .notFound
    | some repo =>
      let wsEntry := s.readFromWorkspace branch path
      match s.readBranch branch with
      | none => .error .notFound
      | some br =>
        let merkleEntry := (merkleGetEntry s br.workspaceRoot path .object).toOption
        if wsEntry.isNone && merkleEntry.isNone then .error .notFound
        else
          let afterWs : Except Err Store :=
            match wsEntry with
            | none => .ok s
            | some we =>
              if we.tombstone then .error .notFound
              else .ok (s.deleteWorkspacePath branch path)
          match afterWs with
          | .error e => .error e
          | .ok s1 =>
            match merkleEntry with
            | none => .ok s1
            | some _ =>
              writeEntryToWorkspace s1 repo branch path
                { path := path
                  entry :=
                    { name := pathBasename path
                      address := ""
                      type := .object
                      timestamp := ts
                      size := 0
                      checksum := "" }
                  tombstone := true } draw

/-- `KVIndex.WriteObject` of `indexer.go`: hash and persist the object, read
the repo, then stage a workspace entry carrying the object's address, size,
checksum, timestamp and basename, and roll the partial-commit die. -/
def KVIndex.WriteObject (s : Store) (repoId branch path : String) (object : Object)
    (ts : Int) (draw : Rat) : Except Err Store :=
  match ValidateAll
      [(ValidateRepoId repoId, .invalidRepoId),
       (ValidateRef branch, .invalidRef),
       (ValidatePath path, .invalidPath)] with
  | some e => .error e
  | none =>
    let addr := identHashObject object
    let s0 := s.writeObject addr object
    match s0.readRepo with
    | none => .error .notFound
    | some repo =>
      writeEntryToWorkspace s0 repo branch path
        { path := pathString path
          entry :=
            { name := pathBasename path
              address := addr
              type := .object
              timestamp := ts
              size := object.size
              checksum := object.checksum } } draw

/-- `KVIndex.WriteEntry` of `indexer.go`: stage a caller-supplied entry with
no object write. -/
def KVIndex.WriteEntry (s : Store) (repoId branch path : String) (entry : Entry)
    (draw : Rat) : Except Err Store :=
  match ValidateAll
      [(ValidateRepoId repoId, .invalidRepoId),
       (ValidateRef branch, .invalidRef),
       (ValidatePath path, .invalidPath)] with
  | some e => .error e
  | none =>
    match s.readRepo with
    | none => .error .notFound
    | some repo =>
      writeEntryToWorkspace s repo branch path { path := path, entry := entry } draw

/-- `KVIndex.WriteFile` of `indexer.go`: persist the object, then stage the
caller-supplied entry. -/
def KVIndex.WriteFile (s : Store) (repoId branch path : String) (entry : Entry)
    (obj : Object) (draw : Rat) : Except Err Store :=
  match ValidateAll
      [(ValidateRepoId repoId, .invalidRepoId),
       (ValidateRef branch, .invalidRef),
       (ValidatePath path, .invalidPath)] with
  | some e => .error e
  | none =>
    match s.readRepo with
    | none => .error .notFound
    | some repo =>
      let s0 := s.writeObject (identHashObject obj) obj
      writeEntryToWorkspace s0 repo branch path { path := path, entry := entry } draw

/-- Alias to the commit record for use inside the `KVIndex` namespace, where
the bare name `Commit` resolves to the operation. -/
abbrev CommitData := Commit

/-- The value a successful `KVIndex.Commit` hands back together with the
transaction's resulting store. -/
abbrev CommitOutcome := Commit × Store

/-- `KVIndex.Commit` of `indexer.go`: partial commit, read the branch, then
`doCommitUpdates` with the branch's current commit as sole parent. An error
from `doCommitUpdates` aborts the transaction. -/
def KVIndex.Commit (s : Store) (repoId branch message committer : String)
    (metadata : List (String × String)) (ts : Int) : Except Err CommitOutcome :=
  match ValidateAll
      [(ValidateRepoId repoId, .invalidRepoId),
       (ValidateRef branch, .invalidRef),
       (ValidateCommitMessage message, .emptyCommitMessage)] with
  | some e => .error e
  | none =>
    match partialCommit s branch with
    | .error e => .error e
    | .ok s1 =>
      match s1.readBranch branch with
      | none => .error .notFound
      | some branchData =>
        match doCommitUpdates s1 branchData committer message [branchData.commit] metadata ts with
        | (.error e, _) => .error e
        | (.ok commit, s2) => .ok (commit, s2)

/-- `KVIndex.CreateRepo` of `indexer.go`: write the repo record with the
default partial-commit ratio, an initial empty commit with the empty tree
and no parents, and the default branch pointing at it. -/
def DefaultPartialCommitRatio : Rat := 1

/-- `KVIndex.CreateRepo`'s transaction body (see `DefaultPartialCommitRatio`). -/
def KVIndex.CreateRepo (s : Store) (repoId bucketName defaultBranch : String)
    (ts : Int) : Except Err Store :=
  match ValidateAll [(ValidateRepoId repoId, .invalidRepoId)] with
  | some e => .error e
  | none =>
    let repo : Repo :=
      { repoId := repoId
        bucketName := bucketName
        creationDate := ts
        defaultBranch := defaultBranch
        partialCommitRatio := DefaultPartialCommitRatio }
    match s.readRepo with
    | some _ => .error .repoExists
    | none =>
      let s1 := { s with repo := some repo }
      let commit0 : CommitData :=
        { address := ""
          tree := identEmpty
          parents := []
          committer := ""
          message := ""
          timestamp := ts
          metadata := [] }
      let commitId := identHashCommit commit0
      let commit := { commit0 with address := commitId }
      match s1.writeCommit commitId commit with
      | .error e => .error e
      | .ok s2 =>
        s2.writeBranch repo.defaultBranch
          { name := repo.defaultBranch
            commit := commitId
            commitRoot := commit.tree
            workspaceRoot := commit.tree }

/-- `doDiff` of `indexer.go`: resolve both refs (failures become
`BranchNotFound`), find the lowest common ancestor (`NoMergeBase` when there
is none), pick the left tree (a branch's `workspace_root` only outside a
merge) and run the three-way Merkle diff. -/
def doDiff (s : Store) (leftRef rightRef : String) (isMerge : Bool) :
    Except Err (List Difference) :=
  match resolveRef s leftRef with
  | .error _ => .error .branchNotFound
  | .ok lRef =>
    match resolveRef s rightRef with
    | .error _ => .error .branchNotFound
    | .ok rRef =>
      match findLowestCommonAncestor s lRef.commitOf.address rRef.commitOf.address with
      | none => .error .noMergeBase
      | some commonCommit =>
        let leftTree :=
          match lRef, isMerge with
          | .branch b _, false => b.workspaceRoot
          | _, _ => lRef.commitOf.tree
        let rightTree := rRef.commitOf.tree
        .ok (merkleDiff s leftTree rightTree commonCommit.tree)

/-- What `KVIndex.Merge` returns to its caller: the merge operations (when
the outcome carries them) and the error (when there is one). -/
structure MergeResult where
  ops : Option (List Difference)
  err : Option Err
deriving DecidableEq, Repr

/-- The loop of `KVIndex.Merge` that turns merge operations into workspace
entries over the destination's commit root: a removal becomes a tombstone
whose entry carries only basename and kind; any other operation carries the
entry read from the source branch's `workspace_root`. -/
def buildMergeEntries (s : Store) (sourceWorkspaceRoot : String) :
    List Difference → Except Err (List WorkspaceEntry)
  | [] => .ok []
  | dif :: rest =>
    let one : Except Err WorkspaceEntry :=
      if dif.type = .removed then
        let p := splitSlash dif.path
        .ok { path := dif.path
              entry :=
                { name := p.getLastD ""
                  address := ""
                  type := dif.pathType
                  timestamp := 0
                  size := 0
                  checksum := "" }
              tombstone := true }
      else
        match merkleGetEntry s sourceWorkspaceRoot dif.path dif.pathType with
        | .error e => .error e
        | .ok e => .ok { path := dif.path, entry := e, tombstone := false }
    match one with
    | .error e => .error e
    | .ok w =>
      match buildMergeEntries s sourceWorkspaceRoot rest with
      | .error e => .error e
      | .ok ws => .ok (w :: ws)

/-- `KVIndex.Merge` of `indexer.go`. The pair is (what the caller sees, the
store after the transaction); an error other than `MergeConflict` aborts the
transaction (store unchanged), `MergeConflict` also aborts it but still
hands the caller the merge operations collected before the conflict check,
and on the success path the error of the final `doCommitUpdates` is
discarded, so the transaction commits whatever writes succeeded. -/
def KVIndex.Merge (s : Store) (repoId source destination userId : String) (ts : Int) :
    MergeResult × Store :=
  match ValidateAll
      [(ValidateRepoId repoId, .invalidRepoId),
       (ValidateRef source, .invalidRef),
       (ValidateRef destination, .invalidRef)] with
  | some e => (⟨none, some e⟩, s)
  | none =>
    match s.readBranch destination with
    | none => (⟨none, some .branchNotFound⟩, s)
    | some destinationBranch =>
      let l := s.listWorkspace destination
      if destinationBranch.commitRoot ≠ destinationBranch.workspaceRoot ∨ l.length > 0 then
        (⟨none, some .destinationNotCommitted⟩, s)
      else
        match doDiff s source destination true with
        | .error e => (⟨none, some e⟩, s)
        | .ok df =>
          let isConflict := df.any (fun dif => dif.direction = .conflict)
          let mergeOperations := df.filter (fun dif => dif.direction ≠ .right)
          if isConflict then (⟨some mergeOperations, some .mergeConflict⟩, s)
          else
            match s.readBranch source with
            | none => (⟨none, some .notFound⟩, s)
            | some sourceBranch =>
              match buildMergeEntries s sourceBranch.workspaceRoot mergeOperations with
              | .error e => (⟨none, some e⟩, s)
              | .ok wsEntries =>
                let upd := merkleUpdate s destinationBranch.commitRoot wsEntries
                let destinationBranch := { destinationBranch with
                  commitRoot := upd.1
                  workspaceRoot := upd.1 }
                let parents := [destinationBranch.commit, sourceBranch.commit]
                let commitMessage := "Merge branch " ++ source ++ " into " ++ destination
                let fin := doCommitUpdates upd.2 destinationBranch userId commitMessage
                  parents [] ts
                (⟨some mergeOperations, none⟩, fin.2)

/-- A sample object entry used by the concrete scenarios. -/
def entryA : Entry :=
  { name := "a", address := "objA", type := .object, timestamp := 1, size := 3, checksum := "ca" }

/-- A second, different entry at the same path (for conflicts). -/
def entryA2 : Entry :=
  { name := "a", address := "objA2", type := .object, timestamp := 2, size := 4, checksum := "cb" }

/-- The sample object behind `entryA`. -/
def objA : Object := { blob := "pa", size := 3, checksum := "ca" }

/-- Root commit of the concrete scenarios (empty tree `t0`). -/
def c0 : Commit :=
  { address := "c0", tree := "t0", parents := [], committer := "", message := "",
    timestamp := 0, metadata := [] }

/-- Commit adding `a` on top of `c0` (tree `t1`). -/
def c1 : Commit :=
  { address := "c1", tree := "t1", parents := ["c0"], committer := "u", message := "m1",
    timestamp := 1, metadata := [] }

/-- Commit adding a different `a` on top of `c0` (tree `t2`). -/
def c2 : Commit :=
  { address := "c2", tree := "t2", parents := ["c0"], committer := "u", message := "m2",
    timestamp := 2, metadata := [] }

/-- A clean `master` branch at the root commit. -/
def masterClean : Branch :=
  { name := "master", commit := "c0", commitRoot := "t0", workspaceRoot := "t0" }

/-- A `dev` branch at `c1`. -/
def devBranch : Branch :=
  { name := "dev", commit := "c1", commitRoot := "t1", workspaceRoot := "t1" }

/-- A store in which `dev` (at `c1`) can merge cleanly into `master` (at `c0`). -/
def mergeStore : Store :=
  { repo := some { repoId := "repo1", bucketName := "b", creationDate := 0,
                   defaultBranch := "master", partialCommitRatio := 1 }
    branches := [("master", masterClean), ("dev", devBranch)]
    commits := [("c0", c0), ("c1", c1), ("c2", c2)]
    objects := [("objA", objA)]
    workspace := []
    trees := [("t1", [("a", entryA)]), ("t2", [("a", entryA2)])] }

/-- Like `mergeStore`, but `master` sits at `c2`, so `dev` and `master` touch
the path `a` differently: the merge conflicts. -/
def conflictStore : Store :=
  { mergeStore with branches :=
      [("master", { name := "master", commit := "c2", commitRoot := "t2", workspaceRoot := "t2" }),
       ("dev", devBranch)] }

/-- Like `mergeStore`, but `master`'s workspace root differs from its commit
root: the destination has uncommitted work. -/
def dirtyStore : Store :=
  { mergeStore with branches :=
      [("master", { name := "master", commit := "c0", commitRoot := "t0", workspaceRoot := "t1" }),
       ("dev", devBranch)] }

/-- `mergeStore` with one pending workspace entry on `master`. -/
def wsStore : Store :=
  { mergeStore with workspace := [(("master", "a"), { path := "a", entry := entryA })] }

/-- A repository with partial-commit ratio 1 but no branch record at all. -/
def storeNoBranch : Store :=
  { repo := some { repoId := "repo1", bucketName := "b", creationDate := 0,
                   defaultBranch := "master", partialCommitRatio := 1 }
    branches := [], commits := [], objects := [], workspace := [], trees := [] }

/-- `storeNoBranch` with an orphaned workspace entry under branch `br`. -/
def orphanStore : Store :=
  { storeNoBranch with workspace := [(("br", "f1"), { path := "f1", entry := entryA })] }

/-- C10: for a branch name whose branch record does not exist but whose
workspace listing is non-empty, `partialCommit` returns success without
clearing the workspace and without writing any branch or tree — the store is
returned entirely unchanged. -/
theorem partialCommit_missing_branch_noop (s : Store) (branch : String)
    (hb : s.readBranch branch = none) (hw : s.listWorkspace branch ≠ []) :
    partialCommit s branch = .ok s := by
  simp only [partialCommit, hb]
  split <;> rfl

/-- Witness for C10 at the concrete orphaned store. -/
theorem partialCommit_missing_branch_noop_witness :
    orphanStore.readBranch "br" = none ∧ orphanStore.listWorkspace "br" ≠ [] ∧
      partialCommit orphanStore "br" = .ok orphanStore :=
  ⟨by decide, by decide,
    partialCommit_missing_branch_noop orphanStore "br" (by decide) (by decide)⟩

/-- C7: reference resolution returns the commit when the ref is hash-shaped
and such a commit exists; otherwise (also when a hash-shaped ref names no
commit — the fall-through) it returns the branch of that name together with
the commit it points to, and fails with the not-found error when no such
branch exists. `resolveRef` is a pure function of the store (no store is
returned), so it performs only reads. -/
theorem resolveRef_spec (s : Store) (ref : String) :
    (∀ c, identIsHash ref = true → s.readCommit ref = some c →
        resolveRef s ref = .ok (.commit c)) ∧
    ((identIsHash ref = false ∨ s.readCommit ref = none) →
      (∀ b c, s.readBranch ref = some b → s.readCommit b.commit = some c →
          resolveRef s ref = .ok (.branch b c)) ∧
      (s.readBranch ref = none → resolveRef s ref = .error .notFound)) := by
  constructor
  · intro c hh hc
    simp [resolveRef, hh, hc]
  · intro hmiss
    constructor
    · intro b c hb hc
      rcases hmiss with h | h
      · simp [resolveRef, h, resolveBranch, hb, hc]
      · simp [resolveRef, h, resolveBranch, hb, hc]
    · intro hb
      rcases hmiss with h | h
      · simp [resolveRef, h, resolveBranch, hb]
      · simp [resolveRef, h, resolveBranch, hb]

/-- Witness for C7: a hash-shaped ref resolving to a commit, a branch-name
ref resolving to the branch, and a missing ref failing, all in `mergeStore`
extended with one commit stored under its real hash address. -/
theorem resolveRef_spec_witness :
    (resolveRef { mergeStore with
        commits := ("aaaaaaaaaaaaaaaaaaaaaaaaaaaaaaaaaaaaaaaaaaaaaaaaaaaaaaaaaaaaaaaa", c1) ::
          mergeStore.commits } "aaaaaaaaaaaaaaaaaaaaaaaaaaaaaaaaaaaaaaaaaaaaaaaaaaaaaaaaaaaaaaaa" =
      .ok (.commit c1)) ∧
    (resolveRef mergeStore "master" = .ok (.branch masterClean c0)) ∧
    (resolveRef mergeStore "nosuch" = .error .notFound) :=
  ⟨(resolveRef_spec _ _).1 c1 (by decide) (by decide),
   ((resolveRef_spec mergeStore "master").2 (Or.inl (by decide))).1 masterClean c0
     (by decide) (by decide),
   ((resolveRef_spec mergeStore "nosuch").2 (Or.inl (by decide))).2 (by decide)⟩

/-- Clearing a branch's workspace empties its listing. -/
theorem listWorkspace_clearWorkspace (s : Store) (b : String) :
    (s.clearWorkspace b).listWorkspace b = [] := by
  have key : ∀ l : List ((String × String) × WorkspaceEntry),
      (l.filter (fun q => q.1.1 ≠ b)).filter (fun q => q.1.1 = b) = [] := by
    intro l
    induction l with
    | nil => rfl
    | cons x xs ih => by_cases h : x.1.1 = b <;> simp [h, ih]
  simp [Store.clearWorkspace, Store.listWorkspace, key]

/-- `merkleUpdate` only touches the tree nodes of the store. -/
theorem merkleUpdate_workspace (s : Store) (root : String) (ws : List WorkspaceEntry) :
    (merkleUpdate s root ws).2.workspace = s.workspace := rfl

/-- `merkleUpdate` preserves the fault switches. -/
theorem merkleUpdate_failWriteBranch (s : Store) (root : String) (ws : List WorkspaceEntry) :
    (merkleUpdate s root ws).2.failWriteBranch = s.failWriteBranch := rfl

/-- C6: `partialCommit` is idempotent — a second run after a successful one
returns the reached store unchanged; a run on an empty workspace performs no
writes at all (the store is returned as it was); and a run that does fold
entries leaves the branch record with `commit` and `commit_root` unchanged
and only `workspace_root` moved to the updated tree's root, with the
workspace cleared. -/
theorem partialCommit_props (s : Store) (branch : String) (s' : Store)
    (h : partialCommit s branch = .ok s') :
    partialCommit s' branch = .ok s' ∧
    (s.listWorkspace branch = [] → s' = s) ∧
    (∀ bd, s.listWorkspace branch ≠ [] → s.readBranch branch = some bd →
      s'.readBranch branch = some
        { name := branch
          commit := bd.commit
          commitRoot := bd.commitRoot
          workspaceRoot := (merkleUpdate s bd.workspaceRoot (s.listWorkspace branch)).1 } ∧
      s'.listWorkspace branch = []) := by
  by_cases hw : s.listWorkspace branch = []
  · have hs : s' = s := by
      simp [partialCommit, hw] at h
      exact h.symm
    subst hs
    exact ⟨by simp [partialCommit, hw], fun _ => rfl, fun bd hne _ => absurd hw hne⟩
  · have hlen : ¬ (s.listWorkspace branch).length = 0 := by
      simpa [List.length_eq_zero] using hw
    cases hb : s.readBranch branch with
    | none =>
      have hs : s' = s := by
        simp only [partialCommit, hb] at h
        rw [if_neg hlen] at h
        exact ((Except.ok.injEq _ _).mp h).symm
      subst hs
      refine ⟨?_, fun he => absurd he hw, fun bd _ hbd => by simp [hb] at hbd⟩
      simp only [partialCommit, hb]
      rw [if_neg hlen]
    | some bd =>
      simp only [partialCommit, hb, Store.writeBranch] at h
      rw [if_neg hlen] at h
      split at h
      · cases h
      · have hs := (Except.ok.injEq _ _).mp h
        have hws' : s'.listWorkspace branch = [] := by
          rw [← hs]
          exact listWorkspace_clearWorkspace
            (merkleUpdate s bd.workspaceRoot (s.listWorkspace branch)).2 branch
        refine ⟨by simp [partialCommit, hws'], fun he => absurd he hw,
          fun bd' _ hbd' => ?_⟩
        have hbd : bd' = bd := ((Option.some.injEq _ _).mp hbd').symm
        subst hbd
        refine ⟨?_, hws'⟩
        rw [← hs]
        simp [Store.readBranch, assocInsert]

/-- The store reached by folding `wsStore`'s pending entry on `master`. -/
def wsStoreFolded : Store := ((partialCommit wsStore "master").toOption).getD wsStore

/-- Witness for C6 at the concrete store with one pending entry on `master`:
the fold is idempotent, and the branch keeps `commit`/`commit_root` while
`workspace_root` moves to the updated tree, with the workspace cleared. -/
theorem partialCommit_props_witness :
    partialCommit wsStoreFolded "master" = .ok wsStoreFolded ∧
    wsStoreFolded.readBranch "master" = some
      { name := "master"
        commit := masterClean.commit
        commitRoot := masterClean.commitRoot
        workspaceRoot :=
          (merkleUpdate wsStore masterClean.workspaceRoot (wsStore.listWorkspace "master")).1 } ∧
    wsStoreFolded.listWorkspace "master" = [] := by
  obtain ⟨h1, _, h3⟩ := partialCommit_props wsStore "master" wsStoreFolded (by decide)
  obtain ⟨ha, hb⟩ := h3 masterClean (by decide) (by decide)
  exact ⟨h1, ha, hb⟩

/-- `merkleGetEntry` fails only with the not-found error. -/
theorem merkleGetEntry_error (s : Store) (root path : String) (typ : EntryType) (e : Err)
    (h : merkleGetEntry s root path typ = .error e) : e = .notFound := by
  unfold merkleGetEntry at h
  split at h
  · cases h
    rfl
  · split at h
    · cases h
    · cases h
      rfl

/-- `doDiff` fails only with branch-not-found or no-merge-base. -/
theorem doDiff_error (s : Store) (leftRef rightRef : String) (isMerge : Bool) (e : Err)
    (h : doDiff s leftRef rightRef isMerge = .error e) :
    e = .branchNotFound ∨ e = .noMergeBase := by
  unfold doDiff at h
  split at h
  · cases h
    exact Or.inl rfl
  · split at h
    · cases h
      exact Or.inl rfl
    · split at h
      · cases h
        exact Or.inr rfl
      · cases h

/-- `buildMergeEntries` fails only with the not-found error. -/
theorem buildMergeEntries_error (s : Store) (root : String) :
    ∀ (l : List Difference) (e : Err), buildMergeEntries s root l = .error e → e = .notFound := by
  intro l
  induction l with
  | nil => intro e h; cases h
  | cons dif rest ih =>
    intro e h
    unfold buildMergeEntries at h
    by_cases hr : dif.type = DiffType.removed
    · rw [if_pos hr] at h
      cases hrec : buildMergeEntries s root rest with
      | error e2 =>
        rw [hrec] at h
        exact ((Except.error.injEq _ _).mp h) ▸ ih _ hrec
      | ok ws =>
        rw [hrec] at h
        cases h
    · rw [if_neg hr] at h
      cases hme : merkleGetEntry s root dif.path dif.pathType with
      | error e2 =>
        rw [hme] at h
        exact ((Except.error.injEq _ _).mp h) ▸ merkleGetEntry_error _ _ _ _ _ hme
      | ok ent =>
        rw [hme] at h
        cases hrec : buildMergeEntries s root rest with
        | error e2 =>
          rw [hrec] at h
          exact ((Except.error.injEq _ _).mp h) ▸ ih _ hrec
        | ok ws =>
          rw [hrec] at h
          cases h

/-- C1: `Merge` fails with `DestinationNotCommitted` — leaving the store
untouched, so no merge commit is written and the destination branch does not
move — whenever the destination's commit root differs from its workspace
root or its workspace listing is non-empty; and when the roots agree and the
workspace is empty, `Merge` proceeds past this check (whatever else happens,
it never returns `DestinationNotCommitted`). -/
theorem merge_destination_not_committed (s : Store)
    (repoId source destination userId : String) (ts : Int) (db_ : Branch)
    (hv : ValidateAll
        [(ValidateRepoId repoId, .invalidRepoId),
         (ValidateRef source, .invalidRef),
         (ValidateRef destination, .invalidRef)] = none)
    (hb : s.readBranch destination = some db_) :
    ((db_.commitRoot ≠ db_.workspaceRoot ∨ s.listWorkspace destination ≠ []) →
        KVIndex.Merge s repoId source destination userId ts =
          (⟨none, some .destinationNotCommitted⟩, s)) ∧
    (db_.commitRoot = db_.workspaceRoot → s.listWorkspace destination = [] →
        (KVIndex.Merge s repoId source destination userId ts).1.err ≠
          some .destinationNotCommitted) := by
  constructor
  · intro hcond
    have hcond' : db_.commitRoot ≠ db_.workspaceRoot ∨
        (s.listWorkspace destination).length > 0 := by
      rcases hcond with h | h
      · exact Or.inl h
      · exact Or.inr (List.length_pos.mpr h)
    simp only [KVIndex.Merge, hv, hb]
    rw [if_pos hcond']
  · intro heq hemp
    have hcond' : ¬ (db_.commitRoot ≠ db_.workspaceRoot ∨
        (s.listWorkspace destination).length > 0) := by
      rw [not_or]
      exact ⟨not_not.mpr heq, by simp [hemp]⟩
    simp only [KVIndex.Merge, hv, hb]
    rw [if_neg hcond']
    cases hd : doDiff s source destination true with
    | error e =>
      rcases doDiff_error _ _ _ _ _ hd with h | h <;> simp [h]
    | ok df =>
      simp only
      by_cases hc : df.any (fun dif => dif.direction = .conflict)
      · simp [hc]
      · simp only [hc, Bool.false_eq_true, if_false]
        cases hsb : s.readBranch source with
        | none => simp
        | some sb =>
          simp only
          split
          · next e heq =>
            have := buildMergeEntries_error _ _ _ _ heq
            simp [this]
          · next ws heq => simp

/-- Witness for C1: the dirty destination is rejected with
`DestinationNotCommitted` and an unchanged store; the clean destination
passes the check. -/
theorem merge_destination_not_committed_witness :
    KVIndex.Merge dirtyStore "repo1" "dev" "master" "u" 5 =
      (⟨none, some .destinationNotCommitted⟩, dirtyStore) ∧
    (KVIndex.Merge mergeStore "repo1" "dev" "master" "u" 5).1.err ≠
      some .destinationNotCommitted :=
  ⟨(merge_destination_not_committed dirtyStore "repo1" "dev" "master" "u" 5
      { name := "master", commit := "c0", commitRoot := "t0", workspaceRoot := "t1" }
      (by decide) (by decide)).1 (Or.inl (by decide)),
   (merge_destination_not_committed mergeStore "repo1" "dev" "master" "u" 5 masterClean
      (by decide) (by decide)).2 (by decide) (by decide)⟩

/-- C2: when the three-way diff of a merge contains a conflict, `Merge`
returns the `MergeConflict` error together with the merge operations — the
differences whose direction is not `right` — and the store is unchanged, so
no merge commit is written. -/
theorem merge_conflict_returns_ops (s : Store)
    (repoId source destination userId : String) (ts : Int) (db_ : Branch)
    (df : List Difference)
    (hv : ValidateAll
        [(ValidateRepoId repoId, .invalidRepoId),
         (ValidateRef source, .invalidRef),
         (ValidateRef destination, .invalidRef)] = none)
    (hb : s.readBranch destination = some db_)
    (heq : db_.commitRoot = db_.workspaceRoot)
    (hemp : s.listWorkspace destination = [])
    (hd : doDiff s source destination true = .ok df)
    (hc : df.any (fun dif => dif.direction = .conflict) = true) :
    KVIndex.Merge s repoId source destination userId ts =
      (⟨some (df.filter (fun dif => dif.direction ≠ .right)), some .mergeConflict⟩, s) := by
  have hcond' : ¬ (db_.commitRoot ≠ db_.workspaceRoot ∨
      (s.listWorkspace destination).length > 0) := by
    rw [not_or]
    exact ⟨not_not.mpr heq, by simp [hemp]⟩
  simp only [KVIndex.Merge, hv, hb]
  rw [if_neg hcond']
  rw [hd]
  simp [hc]

/-- The single conflicting difference of the concrete conflict scenario. -/
def conflictDiff : Difference :=
  { type := .added, direction := .conflict, path := "a", pathType := .object }

/-- Witness for C2: in the concrete conflict scenario, `Merge` returns the
conflict error together with the one merge operation, and the store is
untouched. -/
theorem merge_conflict_returns_ops_witness :
    KVIndex.Merge conflictStore "repo1" "dev" "master" "u" 5 =
      (⟨some [conflictDiff], some .mergeConflict⟩, conflictStore) :=
  (merge_conflict_returns_ops conflictStore "repo1" "dev" "master" "u" 5
    { name := "master", commit := "c2", commitRoot := "t2", workspaceRoot := "t2" }
    [conflictDiff] (by decide) (by decide) (by decide) (by decide) (by decide)
    (by decide)).trans (by decide)

/-- A faulty store's `doCommitUpdates` fails: with the commit-write switch on
the commit is refused, otherwise the branch-write switch refuses the branch. -/
theorem doCommitUpdates_error_of_fault (s : Store) (bd : Branch)
    (committer message : String) (parents : List String)
    (metadata : List (String × String)) (ts : Int)
    (hf : s.failWriteCommit = true ∨ s.failWriteBranch = true) :
    ∃ e, (doCommitUpdates s bd committer message parents metadata ts).1 = .error e := by
  unfold doCommitUpdates Store.writeCommit Store.writeBranch
  cases hfc : s.failWriteCommit with
  | true => simp [hfc]
  | false =>
    rcases hf with h | h
    · rw [hfc] at h
      cases h
    · simp [hfc, h]

/-- C8: on a non-conflicting merge, the error of the final commit-update step
(writing the merge commit and the destination branch record) is discarded:
even when that step fails because of a store fault, `Merge` still returns the
merge operations with no error. -/
theorem merge_discards_commit_update_error (s : Store)
    (repoId source destination userId : String) (ts : Int) (db_ sb : Branch)
    (df : List Difference) (ws : List WorkspaceEntry)
    (hv : ValidateAll
        [(ValidateRepoId repoId, .invalidRepoId),
         (ValidateRef source, .invalidRef),
         (ValidateRef destination, .invalidRef)] = none)
    (hbd : s.readBranch destination = some db_)
    (heq : db_.commitRoot = db_.workspaceRoot)
    (hemp : s.listWorkspace destination = [])
    (hd : doDiff s source destination true = .ok df)
    (hc : df.any (fun dif => dif.direction = .conflict) = false)
    (hsb : s.readBranch source = some sb)
    (hbme : buildMergeEntries s sb.workspaceRoot
        (df.filter (fun dif => dif.direction ≠ .right)) = .ok ws)
    (hfault : s.failWriteCommit = true ∨ s.failWriteBranch = true) :
    (∃ e, (doCommitUpdates (merkleUpdate s db_.commitRoot ws).2
        { db_ with
          commitRoot := (merkleUpdate s db_.commitRoot ws).1
          workspaceRoot := (merkleUpdate s db_.commitRoot ws).1 }
        userId ("Merge branch " ++ source ++ " into " ++ destination)
        [db_.commit, sb.commit] [] ts).1 = .error e) ∧
    (KVIndex.Merge s repoId source destination userId ts).1 =
      ⟨some (df.filter (fun dif => dif.direction ≠ .right)), none⟩ := by
  constructor
  · exact doCommitUpdates_error_of_fault _ _ _ _ _ _ _ hfault
  · have hcond' : ¬ (db_.commitRoot ≠ db_.workspaceRoot ∨
        (s.listWorkspace destination).length > 0) := by
      rw [not_or]
      exact ⟨not_not.mpr heq, by simp [hemp]⟩
    simp only [KVIndex.Merge, hv, hbd]
    rw [if_neg hcond']
    rw [hd]
    simp only [hc, Bool.false_eq_true, if_false]
    rw [hsb]
    simp only
    rw [hbme]

/-- `mergeStore` with the commit-write fault switch armed. -/
def mergeStoreFault : Store := { mergeStore with failWriteCommit := true }

/-- The one non-conflicting difference `dev` contributes in `mergeStore`. -/
def addedDiff : Difference :=
  { type := .added, direction := .left, path := "a", pathType := .object }

/-- The workspace entries the concrete merge stages over the destination. -/
def wsA : List WorkspaceEntry := [{ path := "a", entry := entryA, tombstone := false }]

/-- Witness for C8: with the commit write failing, the concrete merge still
returns its operation with no error. -/
theorem merge_discards_commit_update_error_witness :
    (KVIndex.Merge mergeStoreFault "repo1" "dev" "master" "u" 5).1 =
      ⟨some [addedDiff], none⟩ :=
  ((merge_discards_commit_update_error mergeStoreFault "repo1" "dev" "master" "u" 5
    masterClean devBranch [addedDiff] wsA
    (by decide) (by decide) (by decide) (by decide) (by decide) (by decide)
    (by decide) (by decide) (Or.inl (by decide))).2).trans (by decide)

/-- The store a folding `partialCommit` run leaves behind: tree updated,
workspace cleared, branch written back with only the workspace root moved. -/
def foldResult (s : Store) (branch : String) (bd0 : Branch) : Store :=
  let upd := merkleUpdate s bd0.workspaceRoot (s.listWorkspace branch)
  let s2 := upd.2.clearWorkspace branch
  let nb : Branch :=
    { name := branch
      commit := bd0.commit
      commitRoot := bd0.commitRoot
      workspaceRoot := upd.1 }
  { s2 with branches := assocInsert branch nb s2.branches }

/-- A fold leaves the branch's workspace listing empty. -/
theorem foldResult_listWorkspace (s : Store) (branch : String) (bd0 : Branch) :
    (foldResult s branch bd0).listWorkspace branch = [] :=
  listWorkspace_clearWorkspace (merkleUpdate s bd0.workspaceRoot (s.listWorkspace branch)).2
    branch

/-- A fold leaves the branch record with only the workspace root moved. -/
theorem foldResult_readBranch (s : Store) (branch : String) (bd0 : Branch) :
    (foldResult s branch bd0).readBranch branch = some
      { name := branch
        commit := bd0.commit
        commitRoot := bd0.commitRoot
        workspaceRoot := (merkleUpdate s bd0.workspaceRoot (s.listWorkspace branch)).1 } := by
  simp [foldResult, Store.readBranch, assocInsert]

/-- The full case analysis of a successful `partialCommit`: either it was a
no-op (empty workspace or missing branch) or it folded the workspace and the
resulting store is exactly the update-clear-write composite. -/
theorem partialCommit_cases (s : Store) (branch : String) (s1 : Store)
    (h : partialCommit s branch = .ok s1) :
    (s1 = s ∧ (s.listWorkspace branch = [] ∨ s.readBranch branch = none)) ∨
    (∃ bd0, s.readBranch branch = some bd0 ∧ s.listWorkspace branch ≠ [] ∧
      s1 = foldResult s branch bd0) := by
  by_cases hw : s.listWorkspace branch = []
  · left
    refine ⟨?_, Or.inl hw⟩
    simp [partialCommit, hw] at h
    exact h.symm
  · have hlen : ¬ (s.listWorkspace branch).length = 0 := by
      simpa [List.length_eq_zero] using hw
    cases hb : s.readBranch branch with
    | none =>
      left
      refine ⟨?_, Or.inr rfl⟩
      simp only [partialCommit, hb] at h
      rw [if_neg hlen] at h
      exact ((Except.ok.injEq _ _).mp h).symm
    | some bd =>
      right
      refine ⟨bd, rfl, hw, ?_⟩
      simp only [partialCommit, hb, Store.writeBranch] at h
      rw [if_neg hlen] at h
      split at h
      · cases h
      · exact ((Except.ok.injEq _ _).mp h).symm

/-- What a successful `doCommitUpdates` produces: the commit carries the
branch's workspace root as tree and the given parents, its address is the
content hash of the record with an empty address field, and the branch
record is advanced to the new commit; the workspace is untouched. -/
theorem doCommitUpdates_ok (s : Store) (bd : Branch) (committer message : String)
    (parents : List String) (metadata : List (String × String)) (ts : Int)
    (c : Commit) (s' : Store)
    (h : doCommitUpdates s bd committer message parents metadata ts = (.ok c, s')) :
    c.tree = bd.workspaceRoot ∧ c.parents = parents ∧
    c.address = identHashCommit { c with address := "" } ∧
    s'.readBranch bd.name =
      some { bd with commit := c.address, commitRoot := c.tree, workspaceRoot := c.tree } ∧
    s'.workspace = s.workspace := by
  unfold doCommitUpdates Store.writeCommit Store.writeBranch at h
  cases hfc : s.failWriteCommit with
  | true =>
    rw [hfc] at h
    simp only [if_true] at h
    exact absurd (congrArg Prod.fst h) (by simp)
  | false =>
    rw [hfc] at h
    simp only [Bool.false_eq_true, if_false] at h
    cases hfb : s.failWriteBranch with
    | true =>
      rw [hfb] at h
      simp only [if_true] at h
      exact absurd (congrArg Prod.fst h) (by simp)
    | false =>
      rw [hfb] at h
      simp only [Bool.false_eq_true, if_false] at h
      obtain ⟨h1, h2⟩ := Prod.mk.injEq .. |>.mp h
      have hc' := (Except.ok.injEq _ _).mp h1
      subst h2
      subst hc'
      refine ⟨rfl, rfl, rfl, ?_, rfl⟩
      simp [Store.readBranch, assocInsert]

/-- In a store whose branch bindings carry their key as record name, a read
branch record is named after the key it was read under. -/
theorem readBranch_name (s : Store) (b : String) (bd : Branch)
    (hwf : ∀ p ∈ s.branches, p.2.name = p.1) (h : s.readBranch b = some bd) :
    bd.name = b := by
  unfold Store.readBranch at h
  cases hf : s.branches.find? (fun p => p.1 = b) with
  | none =>
    rw [hf] at h
    cases h
  | some pr =>
    rw [hf] at h
    have hmem := List.mem_of_find?_eq_some hf
    have hkeyb := List.find?_some hf
    have hkey : pr.1 = b := of_decide_eq_true hkeyb
    have hbd : pr.2 = bd := (Option.some.injEq _ _).mp h
    rw [← hbd, hwf pr hmem, hkey]

/-- The workspace listing depends only on the workspace component. -/
theorem listWorkspace_congr (a b : Store) (hx : a.workspace = b.workspace) (br : String) :
    a.listWorkspace br = b.listWorkspace br := by
  simp [Store.listWorkspace, hx]

/-- C3: a successful `Commit` first drives a partial commit, then writes a
commit whose tree is the branch's workspace root (as left by the partial
commit) and whose parent list is exactly the previous branch commit, with the
commit's address the content hash of its record; the branch ends up with
`commit` at the new address and `commit_root = workspace_root =` the new
commit's tree, and the workspace is empty. The store is assumed to bind each
branch record under its own name, as every writer in the code maintains. -/
theorem commit_partial_then_advance (s : Store) (repoId branch message committer : String)
    (metadata : List (String × String)) (ts : Int) (c : Commit) (s' : Store)
    (hwf : ∀ p ∈ s.branches, p.2.name = p.1)
    (h : KVIndex.Commit s repoId branch message committer metadata ts = .ok (c, s')) :
    ∃ s1 bd0 bd1,
      partialCommit s branch = .ok s1 ∧
      s.readBranch branch = some bd0 ∧
      s1.readBranch branch = some bd1 ∧
      c.tree = bd1.workspaceRoot ∧
      c.parents = [bd0.commit] ∧
      c.address = identHashCommit { c with address := "" } ∧
      s'.readBranch branch = some
        { name := branch, commit := c.address, commitRoot := c.tree, workspaceRoot := c.tree } ∧
      s'.listWorkspace branch = [] := by
  unfold KVIndex.Commit at h
  cases hval : ValidateAll
      [(ValidateRepoId repoId, .invalidRepoId),
       (ValidateRef branch, .invalidRef),
       (ValidateCommitMessage message, .emptyCommitMessage)] with
  | some e =>
    rw [hval] at h
    cases h
  | none =>
    simp only [hval] at h
    cases hpc : partialCommit s branch with
    | error e =>
      simp only [hpc] at h
      cases h
    | ok s1 =>
      simp only [hpc] at h
      cases hb1 : s1.readBranch branch with
      | none =>
        simp only [hb1] at h
        cases h
      | some bd1 =>
        simp only [hb1] at h
        cases hp : doCommitUpdates s1 bd1 committer message [bd1.commit] metadata ts with
        | mk r s2 =>
          simp only [hp] at h
          cases r with
          | error e =>
            cases h
          | ok cc =>
            have hpair := (Except.ok.injEq _ _).mp h
            have hcc : cc = c := congrArg Prod.fst hpair
            have hs2 : s2 = s' := congrArg Prod.snd hpair
            subst hcc
            subst hs2
            obtain ⟨ht, hpar, haddr, hrb, hwsp⟩ :=
              doCommitUpdates_ok s1 bd1 committer message [bd1.commit] metadata ts cc s2 hp
            rcases partialCommit_cases s branch s1 hpc with ⟨hseq, hor⟩ | ⟨bd0, hbd0, hne, hs1⟩
            · subst hseq
              have hwemp : s1.listWorkspace branch = [] := by
                rcases hor with hx | hx
                · exact hx
                · rw [hx] at hb1
                  cases hb1
              have hname : bd1.name = branch := readBranch_name s1 branch bd1 hwf hb1
              refine ⟨s1, bd1, bd1, rfl, hb1, hb1, ht, hpar, haddr, ?_, ?_⟩
              · rw [hname] at hrb
                exact hrb
              · rw [listWorkspace_congr s2 s1 hwsp branch]
                exact hwemp
            · have hb1' : bd1 =
                  { name := branch, commit := bd0.commit, commitRoot := bd0.commitRoot,
                    workspaceRoot := (merkleUpdate s bd0.workspaceRoot
                      (s.listWorkspace branch)).1 } := by
                rw [hs1, foldResult_readBranch] at hb1
                exact ((Option.some.injEq _ _).mp hb1).symm
              have hname : bd1.name = branch := by rw [hb1']
              have hcommit : bd1.commit = bd0.commit := by rw [hb1']
              refine ⟨s1, bd0, bd1, rfl, hbd0, hb1, ht, ?_, haddr, ?_, ?_⟩
              · rw [hpar, hcommit]
              · rw [hname] at hrb
                exact hrb
              · rw [listWorkspace_congr s2 s1 hwsp branch, hs1]
                exact foldResult_listWorkspace s branch bd0

/-- The outcome of committing the pending entry of `wsStore` on `master`. -/
def wsCommitOutcome : CommitOutcome :=
  ((KVIndex.Commit wsStore "repo1" "master" "msg" "u" [] 9).toOption).getD (c0, wsStore)

set_option maxRecDepth 8192 in
/-- Witness for C3 at the concrete store with one pending entry on `master`. -/
theorem commit_partial_then_advance_witness :
    ∃ s1 bd0 bd1,
      partialCommit wsStore "master" = .ok s1 ∧
      wsStore.readBranch "master" = some bd0 ∧
      s1.readBranch "master" = some bd1 ∧
      wsCommitOutcome.1.tree = bd1.workspaceRoot ∧
      wsCommitOutcome.1.parents = [bd0.commit] ∧
      wsCommitOutcome.1.address = identHashCommit { wsCommitOutcome.1 with address := "" } ∧
      wsCommitOutcome.2.readBranch "master" = some
        { name := "master"
          commit := wsCommitOutcome.1.address
          commitRoot := wsCommitOutcome.1.tree
          workspaceRoot := wsCommitOutcome.1.tree } ∧
      wsCommitOutcome.2.listWorkspace "master" = [] :=
  commit_partial_then_advance wsStore "repo1" "master" "msg" "u" [] 9
    wsCommitOutcome.1 wsCommitOutcome.2 (by decide) (by decide)

/-- The tombstone workspace entry `DeleteObject` stages: an entry carrying
only the path's basename, the timestamp and the object kind. -/
def tombstoneEntry (path : String) (ts : Int) : WorkspaceEntry :=
  { path := path
    entry :=
      { name := pathBasename path
        address := ""
        type := .object
        timestamp := ts
        size := 0
        checksum := "" }
    tombstone := true }

/-- C4: `DeleteObject` implements exactly the five-way case analysis over
(workspace entry present, tree entry present in the workspace root):
neither ⇒ `NotFound` (the transaction aborts, so an error return carries no
state change); an existing tombstone ⇒ `NotFound`; workspace-only ⇒ the
workspace entry is deleted and no tombstone staged; tree-only ⇒ a tombstone
is staged; both ⇒ the workspace entry is deleted and a tombstone staged.
Stated for a draw that does not trigger the partial-commit die, so the
staged tombstone is observable. -/
theorem deleteObject_case_analysis (s : Store) (repoId branch path : String)
    (ts : Int) (draw : Rat) (repo : Repo) (br : Branch)
    (hv : ValidateAll
        [(ValidateRepoId repoId, .invalidRepoId),
         (ValidateRef branch, .invalidRef),
         (ValidatePath path, .invalidPath)] = none)
    (hr : s.readRepo = some repo)
    (hb : s.readBranch branch = some br)
    (hnp : shouldPartiallyCommit repo draw = false) :
    (s.readFromWorkspace branch path = none →
      merkleGetEntry s br.workspaceRoot path .object = .error .notFound →
        KVIndex.DeleteObject s repoId branch path ts draw = .error .notFound) ∧
    (∀ we, s.readFromWorkspace branch path = some we → we.tombstone = true →
        KVIndex.DeleteObject s repoId branch path ts draw = .error .notFound) ∧
    (∀ we, s.readFromWorkspace branch path = some we → we.tombstone = false →
      merkleGetEntry s br.workspaceRoot path .object = .error .notFound →
        KVIndex.DeleteObject s repoId branch path ts draw =
          .ok (s.deleteWorkspacePath branch path)) ∧
    (∀ e, s.readFromWorkspace branch path = none →
      merkleGetEntry s br.workspaceRoot path .object = .ok e →
        KVIndex.DeleteObject s repoId branch path ts draw =
          .ok (s.writeToWorkspacePath branch path (tombstoneEntry path ts))) ∧
    (∀ we e, s.readFromWorkspace branch path = some we → we.tombstone = false →
      merkleGetEntry s br.workspaceRoot path .object = .ok e →
        KVIndex.DeleteObject s repoId branch path ts draw =
          .ok ((s.deleteWorkspacePath branch path).writeToWorkspacePath branch path
            (tombstoneEntry path ts))) := by
  refine ⟨?_, ?_, ?_, ?_, ?_⟩
  · intro hws hme
    simp [KVIndex.DeleteObject, hv, hr, hb, hws, hme, Except.toOption]
  · intro we hws htomb
    simp [KVIndex.DeleteObject, hv, hr, hb, hws, htomb, Except.toOption]
  · intro we hws htomb hme
    simp [KVIndex.DeleteObject, hv, hr, hb, hws, htomb, hme, Except.toOption]
  · intro e hws hme
    simp [KVIndex.DeleteObject, hv, hr, hb, hws, hme, writeEntryToWorkspace, hnp,
      tombstoneEntry, Except.toOption]
  · intro we e hws htomb hme
    simp [KVIndex.DeleteObject, hv, hr, hb, hws, htomb, hme, writeEntryToWorkspace, hnp,
      tombstoneEntry, Except.toOption]

/-- A placeholder repository record for `Option.getD` in the witnesses. -/
def defaultRepo : Repo :=
  { repoId := "", bucketName := "", creationDate := 0, defaultBranch := "",
    partialCommitRatio := 0 }

/-- `mergeStore` with a tombstone already staged on `dev` at `a`. -/
def tombStore : Store :=
  { mergeStore with workspace := [(("dev", "a"), tombstoneEntry "a" 3)] }

/-- `mergeStore` with a live workspace entry on `dev` at `a` (which also
exists in `dev`'s tree). -/
def bothStore : Store :=
  { mergeStore with workspace := [(("dev", "a"), { path := "a", entry := entryA })] }

/-- Witness for C4: all five cases at concrete stores, with draw 1 (the die
does not trigger, since the ratio is 1 and `1 < 1` fails). -/
theorem deleteObject_case_analysis_witness :
    KVIndex.DeleteObject mergeStore "repo1" "master" "zzz" 7 1 = .error .notFound ∧
    KVIndex.DeleteObject tombStore "repo1" "dev" "a" 7 1 = .error .notFound ∧
    KVIndex.DeleteObject wsStore "repo1" "master" "a" 7 1 =
      .ok (wsStore.deleteWorkspacePath "master" "a") ∧
    KVIndex.DeleteObject mergeStore "repo1" "dev" "a" 7 1 =
      .ok (mergeStore.writeToWorkspacePath "dev" "a" (tombstoneEntry "a" 7)) ∧
    KVIndex.DeleteObject bothStore "repo1" "dev" "a" 7 1 =
      .ok ((bothStore.deleteWorkspacePath "dev" "a").writeToWorkspacePath "dev" "a"
        (tombstoneEntry "a" 7)) :=
  ⟨(deleteObject_case_analysis mergeStore "repo1" "master" "zzz" 7 1
      (mergeStore.readRepo.getD defaultRepo) masterClean
      (by decide) (by decide) (by decide) (by decide)).1 (by decide) (by decide),
   ((deleteObject_case_analysis tombStore "repo1" "dev" "a" 7 1
      (tombStore.readRepo.getD defaultRepo) devBranch
      (by decide) (by decide) (by decide) (by decide)).2.1 (tombstoneEntry "a" 3)
      (by decide) (by decide)),
   ((deleteObject_case_analysis wsStore "repo1" "master" "a" 7 1
      (wsStore.readRepo.getD defaultRepo) masterClean
      (by decide) (by decide) (by decide) (by decide)).2.2.1 { path := "a", entry := entryA }
      (by decide) (by decide) (by decide)),
   ((deleteObject_case_analysis mergeStore "repo1" "dev" "a" 7 1
      (mergeStore.readRepo.getD defaultRepo) devBranch
      (by decide) (by decide) (by decide) (by decide)).2.2.2.1 entryA
      (by decide) (by decide)),
   ((deleteObject_case_analysis bothStore "repo1" "dev" "a" 7 1
      (bothStore.readRepo.getD defaultRepo) devBranch
      (by decide) (by decide) (by decide) (by decide)).2.2.2.2 { path := "a", entry := entryA }
      entryA (by decide) (by decide) (by decide))⟩

/-- C5: `ReadObject` on a branch consults the workspace first — a live entry
is followed to the object at its address, a tombstone yields `NotFound`, a
miss falls through to the branch's workspace-root tree — and on a commit it
reads from the commit's tree. The embedding runs in a read-only transaction:
`KVIndex.ReadObject` maps the store to a result and never returns a modified
store, so it cannot modify any state. -/
theorem readObject_spec (s : Store) (repoId ref path : String) (repo : Repo)
    (hv : ValidateAll
        [(ValidateRepoId repoId, .invalidRepoId),
         (ValidateRef ref, .invalidRef),
         (ValidatePath path, .invalidPath)] = none)
    (hr : s.readRepo = some repo) :
    (∀ b c, resolveRef s ref = .ok (.branch b c) →
      (∀ we o, s.readFromWorkspace b.name path = some we → we.tombstone = false →
          s.readObject we.entry.address = some o →
          KVIndex.ReadObject s repoId ref path = .ok o) ∧
      (∀ we, s.readFromWorkspace b.name path = some we → we.tombstone = true →
          KVIndex.ReadObject s repoId ref path = .error .notFound) ∧
      (s.readFromWorkspace b.name path = none →
          KVIndex.ReadObject s repoId ref path = merkleGetObject s b.workspaceRoot path)) ∧
    (∀ c, resolveRef s ref = .ok (.commit c) →
        KVIndex.ReadObject s repoId ref path = merkleGetObject s c.tree path) := by
  constructor
  · intro b c hres
    refine ⟨?_, ?_, ?_⟩
    · intro we o hws htomb hobj
      simp [KVIndex.ReadObject, hv, hr, hres, hws, htomb, hobj]
    · intro we hws htomb
      simp [KVIndex.ReadObject, hv, hr, hres, hws, htomb]
    · intro hws
      simp [KVIndex.ReadObject, hv, hr, hres, hws]
  · intro c hres
    simp [KVIndex.ReadObject, hv, hr, hres]

/-- A 64-hex reference bound to commit `c1` in the commit map. -/
def hashRefStore : Store :=
  { mergeStore with commits :=
      ("aaaaaaaaaaaaaaaaaaaaaaaaaaaaaaaaaaaaaaaaaaaaaaaaaaaaaaaaaaaaaaaa", c1) ::
        mergeStore.commits }

/-- Witness for C5: workspace hit, workspace tombstone, workspace miss with
tree fall-through, and a commit-shaped ref, all at concrete stores. -/
theorem readObject_spec_witness :
    KVIndex.ReadObject wsStore "repo1" "master" "a" = .ok objA ∧
    KVIndex.ReadObject tombStore "repo1" "dev" "a" = .error .notFound ∧
    KVIndex.ReadObject mergeStore "repo1" "dev" "a" = .ok objA ∧
    KVIndex.ReadObject hashRefStore "repo1"
      "aaaaaaaaaaaaaaaaaaaaaaaaaaaaaaaaaaaaaaaaaaaaaaaaaaaaaaaaaaaaaaaa" "a" = .ok objA :=
  ⟨((readObject_spec wsStore "repo1" "master" "a"
      (wsStore.readRepo.getD defaultRepo)
      (by decide) (by decide)).1 masterClean c0 (by decide)).1
      { path := "a", entry := entryA } objA (by decide) (by decide) (by decide),
   ((readObject_spec tombStore "repo1" "dev" "a"
      (tombStore.readRepo.getD defaultRepo)
      (by decide) (by decide)).1 devBranch c1 (by decide)).2.1 (tombstoneEntry "a" 3)
      (by decide) (by decide),
   (((readObject_spec mergeStore "repo1" "dev" "a"
      (mergeStore.readRepo.getD defaultRepo)
      (by decide) (by decide)).1 devBranch c1 (by decide)).2.2 (by decide)).trans (by decide),
   (((readObject_spec hashRefStore "repo1"
      "aaaaaaaaaaaaaaaaaaaaaaaaaaaaaaaaaaaaaaaaaaaaaaaaaaaaaaaaaaaaaaaa" "a"
      (hashRefStore.readRepo.getD defaultRepo)
      (by decide) (by decide)).2 c1 (by decide)).trans (by decide))⟩

/-- With ratio 1 every draw below 1 triggers the partial-commit die. -/
theorem shouldPartiallyCommit_one (repo : Repo) (draw : Rat)
    (hr : repo.partialCommitRatio = 1) (hlt : draw < 1) :
    shouldPartiallyCommit repo draw = true := by
  simp [shouldPartiallyCommit, hr, hlt]

/-- When the die triggers and the branch record exists, a successful
`writeEntryToWorkspace` leaves the branch's workspace empty: the freshly
staged entry makes the workspace non-empty, so `partialCommit` folds and
clears it. -/
theorem writeEntryToWorkspace_folds (s : Store) (repo : Repo) (branch path : String)
    (we : WorkspaceEntry) (draw : Rat) (s' : Store) (bd : Branch)
    (hb : s.readBranch branch = some bd)
    (hsp : shouldPartiallyCommit repo draw = true)
    (h : writeEntryToWorkspace s repo branch path we draw = .ok s') :
    s'.listWorkspace branch = [] := by
  unfold writeEntryToWorkspace at h
  rw [hsp] at h
  simp only [if_true] at h
  rcases partialCommit_cases _ _ _ h with ⟨hseq, hor⟩ | ⟨bd0, _hbd0, _hne, hs1⟩
  · exfalso
    rcases hor with hx | hx
    · have hne2 : (s.writeToWorkspacePath branch path we).listWorkspace branch ≠ [] := by
        simp [Store.writeToWorkspacePath, Store.listWorkspace, assocInsert]
      exact hne2 hx
    · have hbb : (s.writeToWorkspacePath branch path we).readBranch branch = some bd := hb
      rw [hx] at hbb
      cases hbb
  · rw [hs1]
    exact foldResult_listWorkspace _ _ _

/-- C9 (amended: the folding consequence requires the branch record to
exist): every repository written by `CreateRepo` carries partial-commit
ratio 1; `shouldPartiallyCommit` is true for every draw in `[0,1)` at ratio
1; and on such repositories every successful `WriteObject`, `WriteEntry`,
`WriteFile`, or tombstoning `DeleteObject` on an existing branch immediately
folds the workspace into the tree, leaving the branch's workspace empty.
(Without the branch record, `partialCommit` is a silent no-op and the staged
entry survives — see the counterexample.) -/
theorem ratio_one_folds_workspace :
    (∀ (s s' : Store) (repoId bucketName defaultBranch : String) (ts : Int),
        KVIndex.CreateRepo s repoId bucketName defaultBranch ts = .ok s' →
        ∃ r, s'.readRepo = some r ∧ r.partialCommitRatio = 1) ∧
    (∀ (repo : Repo) (draw : Rat), repo.partialCommitRatio = 1 → 0 ≤ draw → draw < 1 →
        shouldPartiallyCommit repo draw = true) ∧
    (∀ (s s' : Store) (repoId branch path : String) (object : Object) (ts : Int)
        (draw : Rat) (repo : Repo) (bd : Branch),
        s.readRepo = some repo → repo.partialCommitRatio = 1 → 0 ≤ draw → draw < 1 →
        s.readBranch branch = some bd →
        KVIndex.WriteObject s repoId branch path object ts draw = .ok s' →
        s'.listWorkspace branch = []) ∧
    (∀ (s s' : Store) (repoId branch path : String) (entry : Entry) (draw : Rat)
        (repo : Repo) (bd : Branch),
        s.readRepo = some repo → repo.partialCommitRatio = 1 → 0 ≤ draw → draw < 1 →
        s.readBranch branch = some bd →
        KVIndex.WriteEntry s repoId branch path entry draw = .ok s' →
        s'.listWorkspace branch = []) ∧
    (∀ (s s' : Store) (repoId branch path : String) (entry : Entry) (obj : Object)
        (draw : Rat) (repo : Repo) (bd : Branch),
        s.readRepo = some repo → repo.partialCommitRatio = 1 → 0 ≤ draw → draw < 1 →
        s.readBranch branch = some bd →
        KVIndex.WriteFile s repoId branch path entry obj draw = .ok s' →
        s'.listWorkspace branch = []) ∧
    (∀ (s s' : Store) (repoId branch path : String) (ts : Int) (draw : Rat)
        (repo : Repo) (bd : Branch) (e : Entry),
        s.readRepo = some repo → repo.partialCommitRatio = 1 → 0 ≤ draw → draw < 1 →
        s.readBranch branch = some bd →
        merkleGetEntry s bd.workspaceRoot path .object = .ok e →
        KVIndex.DeleteObject s repoId branch path ts draw = .ok s' →
        s'.listWorkspace branch = []) := by
  refine ⟨?_, ?_, ?_, ?_, ?_, ?_⟩
  · intro s s' repoId bucketName defaultBranch ts h
    unfold KVIndex.CreateRepo at h
    cases hval : ValidateAll [(ValidateRepoId repoId, .invalidRepoId)] with
    | some e =>
      rw [hval] at h
      cases h
    | none =>
      simp only [hval] at h
      cases hrr : s.readRepo with
      | some r0 =>
        rw [hrr] at h
        cases h
      | none =>
        simp only [hrr] at h
        unfold Store.writeCommit Store.writeBranch at h
        cases hfc : s.failWriteCommit with
        | true =>
          simp only [hfc] at h
          cases h
        | false =>
          simp only [hfc, Bool.false_eq_true, if_false] at h
          cases hfb : s.failWriteBranch with
          | true =>
            simp only [hfb] at h
            cases h
          | false =>
            simp only [hfb, Bool.false_eq_true, if_false] at h
            have hs := (Except.ok.injEq _ _).mp h
            exact ⟨{ repoId := repoId, bucketName := bucketName, creationDate := ts, defaultBranch := defaultBranch, partialCommitRatio := DefaultPartialCommitRatio }, by rw [← hs]; rfl, rfl⟩
  · intro repo draw hr _hnn hlt
    exact shouldPartiallyCommit_one repo draw hr hlt
  · intro s s' repoId branch path object ts draw repo bd hr hratio _hnn hlt hb h
    unfold KVIndex.WriteObject at h
    cases hval : ValidateAll
        [(ValidateRepoId repoId, .invalidRepoId),
         (ValidateRef branch, .invalidRef),
         (ValidatePath path, .invalidPath)] with
    | some e =>
      rw [hval] at h
      cases h
    | none =>
      simp only [hval] at h
      have hrr : (s.writeObject (identHashObject object) object).readRepo = some repo := hr
      simp only [hrr] at h
      exact writeEntryToWorkspace_folds (s.writeObject (identHashObject object) object)
        repo branch path _ draw s' bd hb
        (shouldPartiallyCommit_one repo draw hratio hlt) h
  · intro s s' repoId branch path entry draw repo bd hr hratio _hnn hlt hb h
    unfold KVIndex.WriteEntry at h
    cases hval : ValidateAll
        [(ValidateRepoId repoId, .invalidRepoId),
         (ValidateRef branch, .invalidRef),
         (ValidatePath path, .invalidPath)] with
    | some e =>
      rw [hval] at h
      cases h
    | none =>
      simp only [hval, hr] at h
      exact writeEntryToWorkspace_folds _ repo branch path _ draw s' bd hb
        (shouldPartiallyCommit_one repo draw hratio hlt) h
  · intro s s' repoId branch path entry obj draw repo bd hr hratio _hnn hlt hb h
    unfold KVIndex.WriteFile at h
    cases hval : ValidateAll
        [(ValidateRepoId repoId, .invalidRepoId),
         (ValidateRef branch, .invalidRef),
         (ValidatePath path, .invalidPath)] with
    | some e =>
      rw [hval] at h
      cases h
    | none =>
      simp only [hval, hr] at h
      exact writeEntryToWorkspace_folds (s.writeObject (identHashObject obj) obj)
        repo branch path _ draw s' bd hb
        (shouldPartiallyCommit_one repo draw hratio hlt) h
  · intro s s' repoId branch path ts draw repo bd e hr hratio _hnn hlt hb hme h
    unfold KVIndex.DeleteObject at h
    cases hval : ValidateAll
        [(ValidateRepoId repoId, .invalidRepoId),
         (ValidateRef branch, .invalidRef),
         (ValidatePath path, .invalidPath)] with
    | some e2 =>
      rw [hval] at h
      cases h
    | none =>
      simp only [hval, hr, hb, hme, Except.toOption] at h
      cases hws : s.readFromWorkspace branch path with
      | none =>
        simp only [hws, Option.isNone_none, Option.isNone_some, Bool.and_false] at h
        exact writeEntryToWorkspace_folds _ repo branch path _ draw s' bd hb
          (shouldPartiallyCommit_one repo draw hratio hlt) h
      | some we =>
        simp only [hws, Option.isNone_some, Bool.false_and] at h
        cases htomb : we.tombstone with
        | true =>
          simp only [htomb] at h
          cases h
        | false =>
          simp only [htomb, Bool.false_eq_true, if_false] at h
          have hb2 : (s.deleteWorkspacePath branch path).readBranch branch = some bd := hb
          exact writeEntryToWorkspace_folds _ repo branch path _ draw s' bd hb2
            (shouldPartiallyCommit_one repo draw hratio hlt) h

/-- A store with nothing in it (no repository yet). -/
def emptyStore : Store :=
  { repo := none, branches := [], commits := [], objects := [], workspace := [], trees := [] }

/-- The store `CreateRepo` produces from the empty store. -/
def createdStore : Store :=
  ((KVIndex.CreateRepo emptyStore "repo1" "bucket1" "master" 0).toOption).getD emptyStore

/-- The store after writing one object to `master` of the created repo. -/
def writtenStore : Store :=
  ((KVIndex.WriteObject createdStore "repo1" "master" "f1" objA 0 0).toOption).getD
    createdStore

set_option maxRecDepth 8192 in
/-- Witness for C9 (amended): creating a repository yields ratio 1, the die
triggers at draw 0, and a write to the existing default branch leaves the
workspace folded away. -/
theorem ratio_one_folds_workspace_witness :
    (∃ r, createdStore.readRepo = some r ∧ r.partialCommitRatio = 1) ∧
    shouldPartiallyCommit { defaultRepo with partialCommitRatio := 1 } 0 = true ∧
    writtenStore.listWorkspace "master" = [] :=
  ⟨ratio_one_folds_workspace.1 emptyStore createdStore "repo1" "bucket1" "master" 0
     (by decide),
   ratio_one_folds_workspace.2.1 { defaultRepo with partialCommitRatio := 1 } 0
     (by decide) (by decide) (by decide),
   ratio_one_folds_workspace.2.2.1 createdStore writtenStore "repo1" "master" "f1" objA 0 0
     (createdStore.readRepo.getD defaultRepo)
     ((createdStore.readBranch "master").getD masterClean)
     (by decide) (by decide) (by decide) (by decide) (by decide) (by decide)⟩

set_option maxRecDepth 8192 in
/-- Counterexample for C9 as stated: on the repository made by `CreateRepo`
(ratio 1) and with draw 0, `WriteObject` to a branch with no record succeeds
— yet the workspace is left non-empty, because `partialCommit` silently
no-ops when the branch record is missing. So a successful write does not
always fold the workspace. -/
theorem ratio_one_counterexample :
    (KVIndex.WriteObject createdStore "repo1" "br" "f1" objA 0 0).toOption.map
        (fun s2 => (s2.listWorkspace "br").isEmpty) = some false := by
  decide
